import Mathlib

/-!
Verification development for the VoiceType Pro recording lifecycle and
trigger-arbitration engine (Python sources under `modules/`).

The Python classes are shallowly embedded as pure Lean functions over explicit
state records:

* `AudioRecorder` (modules/audio/audio_recorder.py) → `RecorderState` together
  with `start_recording`, `stop_recording` and `audio_callback`.
* `VoiceTypeProApp` (modules/core/main_app.py) → `AppState` together with
  `stopRecordingAndTranscribe`, `onPushToTalkEnd`, `toggleRecordingApp`.
* `ToggleRecordingHandler` (modules/features/toggle_recording.py) →
  `ToggleState` and `toggleCheckActivation`.
* `HeySoffyHandler` (modules/features/hey_soffy.py) → the rolling buffer step
  `rollAppend`, the wake-word matcher `checkForWakeWord`, and the
  cooldown-gated loop step `soffyStep`.

Audio samples are modelled as rationals (the Python code works on float32
arrays; none of the verified properties depend on rounding).  Wall-clock time
(`time.time()`) is a rational parameter passed to each step.  NumPy RMS
comparisons `sqrt(mean(x**2)) < t` are embedded by the equivalent
square-compare `0 < t ∧ mean(x**2) < t^2` (monotonicity of the square root on
nonnegatives), keeping every definition executable.
-/

/-- Mean of the squares of a frame's samples: `np.mean(chunk**2)`.
(Empty frames never occur in the source; `List.sum / 0 = 0` is the junk value.) -/
def meanSq (chunk : List ℚ) : ℚ :=
  (chunk.map (fun x => x ^ 2)).sum / chunk.length

/-- `rms < threshold` test from `AudioRecorder._audio_callback`
(`rms = np.sqrt(np.mean(audio_chunk**2))`), embedded without square roots:
for `m ≥ 0`, `sqrt m < t ↔ 0 < t ∧ m < t^2`. -/
def isSilentFrame (chunk : List ℚ) (threshold : ℚ) : Bool :=
  decide (0 < threshold) && decide (meanSq chunk < threshold ^ 2)

/-- `rms > threshold` test from `HeySoffyHandler._detect_voice_activity`,
embedded without square roots: for `m ≥ 0`, `sqrt m > t ↔ t < 0 ∨ t^2 < m`. -/
def detectVoiceActivity (chunk : List ℚ) (threshold : ℚ) : Bool :=
  decide (threshold < 0) || decide (threshold ^ 2 < meanSq chunk)

/-- State of `AudioRecorder` (modules/audio/audio_recorder.py): the fields
mutated by `start_recording`, `stop_recording` and `_audio_callback`.
`streamOpen` models whether `self.stream` holds an open stream. -/
structure RecorderState where
  is_recording : Bool
  auto_stop_enabled : Bool
  audio_data : List (List ℚ)
  silence_start : Option ℚ
  streamOpen : Bool
deriving Repr, DecidableEq

/-- `AudioRecorder.start_recording(auto_stop)`: under `self._record_lock`,
returns `False` unchanged if already recording; otherwise sets the flags,
clears the buffer and opens the stream.  `openOk` models whether
`self.audio.open(...)` succeeds; on failure the `except` branch resets
`is_recording` and returns `False`. -/
def start_recording (openOk autoStop : Bool) (s : RecorderState) :
    Bool × RecorderState :=
  if s.is_recording then
    (false, s)
  else if openOk then
    (true,
      { is_recording := true
        auto_stop_enabled := autoStop
        audio_data := []
        silence_start := none
        streamOpen := true })
  else
    (false,
      { is_recording := false
        auto_stop_enabled := autoStop
        audio_data := []
        silence_start := none
        streamOpen := s.streamOpen })

/-- `AudioRecorder.stop_recording()`: under `self._record_lock`, returns `None`
unchanged when not recording; otherwise clears the flags, closes the stream and
returns `np.concatenate(self.audio_data)` when the frame list is nonempty,
`None` otherwise. -/
def stop_recording (s : RecorderState) : Option (List ℚ) × RecorderState :=
  if !s.is_recording then
    (none, s)
  else
    let s' : RecorderState :=
      { s with is_recording := false, auto_stop_enabled := false,
               streamOpen := false }
    if s.audio_data.isEmpty then (none, s') else (some s.audio_data.flatten, s')

/-- Number of successful `start_recording` calls over a serialized sequence of
requests `(openOk, autoStop)`, threading the recorder state (the source
serializes all starts through `self._record_lock`). -/
def successCount : RecorderState → List (Bool × Bool) → ℕ
  | _, [] => 0
  | s, r :: rest =>
    (if (start_recording r.1 r.2 s).1 then 1 else 0) +
      successCount (start_recording r.1 r.2 s).2 rest

/-- Result of one `AudioRecorder._audio_callback` invocation: the new recorder
state, whether the callback returned `pyaudio.paComplete` (which ends frame
delivery), and whether a deferred auto-stop
(`threading.Timer(0.01, self._trigger_auto_stop).start()`) was scheduled. -/
structure CallbackResult where
  state : RecorderState
  complete : Bool
  stopScheduled : Bool
deriving Repr, DecidableEq

/-- `AudioRecorder._audio_callback(in_data, ...)`: returns `paComplete` without
appending when not recording; otherwise appends the chunk and, when
`auto_stop_enabled` and an `auto_stop_callback` is installed (`hasCb`), runs the
RMS silence test: voice resets `silence_start`, first silence stamps it with
`now`, and silence sustained past `silence_timeout` schedules one deferred stop
and completes the stream.  `now` models `time.time()`. -/
def audio_callback (threshold silence_timeout : ℚ) (hasCb : Bool)
    (chunk : List ℚ) (now : ℚ) (s : RecorderState) : CallbackResult :=
  if !s.is_recording then ⟨s, true, false⟩
  else
    let s1 : RecorderState := { s with audio_data := s.audio_data ++ [chunk] }
    if s.auto_stop_enabled && hasCb then
      if isSilentFrame chunk threshold then
        match s.silence_start with
        | none => ⟨{ s1 with silence_start := some now }, false, false⟩
        | some t0 =>
          if now - t0 > silence_timeout then ⟨s1, true, true⟩
          else ⟨s1, false, false⟩
      else ⟨{ s1 with silence_start := none }, false, false⟩
    else ⟨s1, false, false⟩

/-- Delivery of a list of timed frames `(chunk, time)` to `_audio_callback`,
as the PyAudio stream does: delivery ends as soon as a callback returns
`paComplete`.  Returns the final state and how many deferred auto-stops were
scheduled during the run. -/
def runCallbacks (threshold silence_timeout : ℚ) (hasCb : Bool) :
    RecorderState → List (List ℚ × ℚ) → RecorderState × ℕ
  | s, [] => (s, 0)
  | s, f :: rest =>
    if (audio_callback threshold silence_timeout hasCb f.1 f.2 s).complete then
      ((audio_callback threshold silence_timeout hasCb f.1 f.2 s).state,
        if (audio_callback threshold silence_timeout hasCb f.1 f.2 s).stopScheduled
          then 1 else 0)
    else
      ((runCallbacks threshold silence_timeout hasCb
          (audio_callback threshold silence_timeout hasCb f.1 f.2 s).state rest).1,
        (if (audio_callback threshold silence_timeout hasCb f.1 f.2 s).stopScheduled
          then 1 else 0) +
        (runCallbacks threshold silence_timeout hasCb
          (audio_callback threshold silence_timeout hasCb f.1 f.2 s).state rest).2)

/-- Controller-level state of `VoiceTypeProApp` (modules/core/main_app.py):
the recorder together with the controller flags `is_recording` and
`is_toggle_mode`.  The UI, tray and transcription collaborators are external
and hold no state relevant to the verified properties. -/
structure AppState where
  recorder : RecorderState
  is_recording : Bool
  is_toggle_mode : Bool
deriving Repr, DecidableEq

/-- `VoiceTypeProApp.stop_recording_and_transcribe()`: stops the recorder,
unconditionally clears `is_recording` and `is_toggle_mode`, then hands the
buffer to the transcription worker only when it is not `None` and longer than
the minimum audio length (`len(audio_data) > 1000`); otherwise reports
"No audio captured".  The second component is the buffer submitted for
transcription (`none` = no submission). -/
def stopRecordingAndTranscribe (st : AppState) : AppState × Option (List ℚ) :=
  let r := stop_recording st.recorder
  let st' : AppState :=
    { recorder := r.2, is_recording := false, is_toggle_mode := false }
  match r.1 with
  | some a => if a.length > 1000 then (st', some a) else (st', none)
  | none => (st', none)

/-- `VoiceTypeProApp.start_recording(auto_stop)`: delegates to the recorder and
sets the controller's `is_recording` flag only when the recorder reports
success. -/
def startRecordingApp (openOk autoStop : Bool) (st : AppState) : AppState :=
  let r := start_recording openOk autoStop st.recorder
  if r.1 then { st with recorder := r.2, is_recording := true }
  else { st with recorder := r.2 }

/-- `VoiceTypeProApp.on_push_to_talk_end()`: invokes
`stop_recording_and_transcribe` only when `self.is_recording and not
self.is_toggle_mode`.  The Boolean reports whether the stop path was
invoked. -/
def onPushToTalkEnd (st : AppState) : AppState × Bool :=
  if st.is_recording && !st.is_toggle_mode then
    ((stopRecordingAndTranscribe st).1, true)
  else (st, false)

/-- `VoiceTypeProApp.on_push_to_talk_start()`: starts only when not already
recording. -/
def onPushToTalkStart (openOk : Bool) (st : AppState) : AppState :=
  if !st.is_recording then startRecordingApp openOk false st else st

/-- `VoiceTypeProApp.toggle_recording()`: sets `is_toggle_mode = True`, then
stops when recording and starts otherwise. -/
def toggleRecordingApp (openOk : Bool) (st : AppState) : AppState :=
  let st1 : AppState := { st with is_toggle_mode := true }
  if st1.is_recording then (stopRecordingAndTranscribe st1).1
  else startRecordingApp openOk false st1

/-- Python `str.lower()`: characters mapped to lower case. -/
def pyLower (s : String) : String := ⟨s.data.map Char.toLower⟩

/-- Python `str.strip()`: leading and trailing whitespace removed. -/
def pyStrip (s : String) : String :=
  ⟨((s.data.dropWhile Char.isWhitespace).reverse.dropWhile
      Char.isWhitespace).reverse⟩

/-- The key normalization `k.lower().strip()` applied by both hotkey
handlers to configured and pressed key names. -/
def normKey (k : String) : String := pyStrip (pyLower k)

/-- State of `ToggleRecordingHandler` (modules/features/toggle_recording.py):
`last_toggle_time` and the `enabled` flag. -/
structure ToggleState where
  last_toggle_time : ℚ
  enabled : Bool
deriving Repr, DecidableEq

/-- `self.debounce_delay = 0.5` seconds (ToggleRecordingHandler.__init__). -/
def debounce_delay : ℚ := 1 / 2

/-- `ToggleRecordingHandler.check_activation(pressed_keys)`: normalizes the
configured chord and the pressed keys (`k.lower().strip()`) and fires
`on_toggle_recording` when the handler is enabled, the chord is nonempty and a
subset of the pressed keys, and more than `debounce_delay` has elapsed since
the previous successful fire; a fire records `last_toggle_time = now`.
Returns whether it fired together with the new handler state. -/
def toggleCheckActivation (toggleKeysCfg : List String) (pressed : List String)
    (now : ℚ) (ts : ToggleState) : Bool × ToggleState :=
  if !ts.enabled then (false, ts)
  else
    let toggle_keys := toggleKeysCfg.map normKey
    let current := pressed.map normKey
    if (!toggle_keys.isEmpty) && toggle_keys.all (fun k => current.contains k)
        && decide (now - ts.last_toggle_time > debounce_delay) then
      (true, { ts with last_toggle_time := now })
    else (false, ts)

/-- Python slice `lst[-n:]`: the whole list when `n = 0` (it is `lst[0:]`),
otherwise the last `n` elements. -/
def pySliceLast (n : ℕ) (l : List ℚ) : List ℚ :=
  if n = 0 then l else l.drop (l.length - n)

/-- Buffer-maintenance step of `HeySoffyHandler._listen_worker` (under
`self.buffer_lock`): `self.audio_buffer.extend(audio_chunk)` followed by
`if len(self.audio_buffer) > max_samples: self.audio_buffer =
self.audio_buffer[-max_samples:]`, where
`max_samples = int(self.buffer_duration * self.sample_rate)`. -/
def rollAppend (max_samples : ℕ) (buf chunk : List ℚ) : List ℚ :=
  let b := buf ++ chunk
  if b.length > max_samples then pySliceLast max_samples b else b

/-- The most recent `n` entries of `l` (all of `l` when it is shorter). -/
def lastN (n : ℕ) (l : List ℚ) : List ℚ := l.drop (l.length - n)

/-- Worker for `pySplit`: walks the characters, accumulating the current word
in reverse; whitespace closes the current word (if any). -/
def pySplitAux : List Char → List Char → List String
  | [], acc => if acc.isEmpty then [] else [⟨acc.reverse⟩]
  | c :: cs, acc =>
    if c.isWhitespace then
      if acc.isEmpty then pySplitAux cs []
      else ⟨acc.reverse⟩ :: pySplitAux cs []
    else pySplitAux cs (c :: acc)

/-- Python `str.split()` with no separator: split on whitespace runs, dropping
empty pieces. -/
def pySplit (s : String) : List String := pySplitAux s.data []

/-- Python `range(n)` for an `int` bound: empty when `n ≤ 0`. -/
def pyRange (n : ℤ) : List ℕ := List.range n.toNat

/-- Word-matching stage of `HeySoffyHandler._check_for_wake_word`: the wake
phrase is stored lowercased (`__init__`), the recognized text is lowercased and
stripped (`result['text'].lower().strip()`), both are whitespace-split, and the
loop `for i in range(len(text_words) - len(wake_words) + 1)` looks for an index
with `text_words[i:i+len(wake_words)] == wake_words`.  The audio buffering,
normalization and the Whisper call are external; `text` is the recognized
text. -/
def checkForWakeWord (wake_word text : String) : Bool :=
  let wake_words := pySplit (pyLower wake_word)
  let text_words := pySplit (pyStrip (pyLower text))
  (pyRange ((text_words.length : ℤ) - (wake_words.length : ℤ) + 1)).any
    (fun i => (text_words.drop i).take wake_words.length == wake_words)

/-- One frame of the detection cadence in `HeySoffyHandler._listen_worker`
(the `if self._detect_voice_activity(...)` block): `chunk` and `now` are the
frame's samples and `time.time()`; `wake` models the outcome of the external
`_check_for_wake_word()` call (a Whisper transcription of the buffered audio),
if it is invoked. -/
structure SoffyFrame where
  chunk : List ℚ
  now : ℚ
  wake : Bool
deriving Repr, DecidableEq

/-- The cooldown gate of `_listen_worker`: the phrase check runs only when the
frame has voice activity and `current_time - self.last_detection_time >
self.cooldown_period`; `last_detection_time` is updated (and the activation
fired) only when the check succeeds.  Returns
(checked, activated, new last_detection_time). -/
def soffyStep (threshold cooldown : ℚ) (f : SoffyFrame) (last : ℚ) :
    Bool × Bool × ℚ :=
  if detectVoiceActivity f.chunk threshold then
    if f.now - last > cooldown then
      if f.wake then (true, true, f.now) else (true, false, last)
    else (false, false, last)
  else (false, false, last)

/-- Folding `soffyStep` over a list of frames, counting invocations of the
phrase check and activations: (checks, activations, final last_detection_time). -/
def runSoffy (threshold cooldown : ℚ) : ℚ → List SoffyFrame → ℕ × ℕ × ℚ
  | last, [] => (0, 0, last)
  | last, f :: rest =>
    ((if (soffyStep threshold cooldown f last).1 then 1 else 0) +
        (runSoffy threshold cooldown (soffyStep threshold cooldown f last).2.2 rest).1,
      (if (soffyStep threshold cooldown f last).2.1 then 1 else 0) +
        (runSoffy threshold cooldown (soffyStep threshold cooldown f last).2.2 rest).2.1,
      (runSoffy threshold cooldown (soffyStep threshold cooldown f last).2.2 rest).2.2)

lemma start_recording_of_recording (openOk autoStop : Bool) (s : RecorderState)
    (h : s.is_recording = true) :
    start_recording openOk autoStop s = (false, s) := by
  simp [start_recording, h]

lemma successCount_of_recording (s : RecorderState) (reqs : List (Bool × Bool))
    (h : s.is_recording = true) : successCount s reqs = 0 := by
  induction reqs with
  | nil => rfl
  | cons r rest ih =>
      simp [successCount, start_recording_of_recording r.1 r.2 s h, ih]

lemma successCount_le_one (s : RecorderState) (reqs : List (Bool × Bool)) :
    successCount s reqs ≤ 1 := by
  induction reqs generalizing s with
  | nil => simp [successCount]
  | cons r rest ih =>
      by_cases h : s.is_recording = true
      · rw [successCount_of_recording _ _ h]; omega
      · simp only [Bool.not_eq_true] at h
        rcases hopen : r.1 with _ | _
        · have : (start_recording r.1 r.2 s).1 = false := by
            simp [start_recording, h, hopen]
          simp only [successCount, this, Bool.false_eq_true, if_false, Nat.zero_add]
          exact ih (start_recording r.1 r.2 s).2
        · have h2 : (start_recording r.1 r.2 s).2.is_recording = true := by
            simp [start_recording, h, hopen]
          rw [successCount, successCount_of_recording _ _ h2]
          split <;> omega

lemma audio_callback_sched_complete (threshold silence_timeout : ℚ)
    (hasCb : Bool) (chunk : List ℚ) (now : ℚ) (s : RecorderState)
    (h : (audio_callback threshold silence_timeout hasCb chunk now s).stopScheduled
          = true) :
    (audio_callback threshold silence_timeout hasCb chunk now s).complete = true := by
  by_cases h1 : s.is_recording = true
  · by_cases h2 : (s.auto_stop_enabled && hasCb) = true
    · by_cases h3 : isSilentFrame chunk threshold = true
      · rcases h4 : s.silence_start with _ | t0
        · simp [audio_callback, h1, h2, h3, h4] at h
        · by_cases h5 : now - t0 > silence_timeout
          · simp [audio_callback, h1, h2, h3, h4, h5]
          · simp [audio_callback, h1, h2, h3, h4, h5] at h
      · simp [audio_callback, h1, h2, h3] at h
    · simp [audio_callback, h1, h2] at h
  · simp only [Bool.not_eq_true] at h1
    simp [audio_callback, h1] at h

lemma runCallbacks_count_le_one (threshold silence_timeout : ℚ) (hasCb : Bool) :
    ∀ (frames : List (List ℚ × ℚ)) (s : RecorderState),
      (runCallbacks threshold silence_timeout hasCb s frames).2 ≤ 1 := by
  intro frames
  induction frames with
  | nil => intro s; simp [runCallbacks]
  | cons f rest ih =>
      intro s
      simp only [runCallbacks]
      split
      · split <;> omega
      · have hs :
            (audio_callback threshold silence_timeout hasCb f.1 f.2 s).stopScheduled
              = false := by
          by_contra hc
          simp only [Bool.not_eq_false] at hc
          have := audio_callback_sched_complete threshold silence_timeout hasCb
            f.1 f.2 s hc
          simp_all
        simp only [hs, Bool.false_eq_true, if_false, Nat.zero_add]
        exact ih _

lemma audio_callback_voiced (threshold silence_timeout : ℚ) (hasCb : Bool)
    (chunk : List ℚ) (now : ℚ) (s : RecorderState)
    (hrec : s.is_recording = true)
    (hauto : (s.auto_stop_enabled && hasCb) = true)
    (hsil : isSilentFrame chunk threshold = false) :
    audio_callback threshold silence_timeout hasCb chunk now s =
      ⟨{ s with audio_data := s.audio_data ++ [chunk], silence_start := none },
        false, false⟩ := by
  simp [audio_callback, hrec, hauto, hsil]

lemma audio_callback_silent_unset (threshold silence_timeout : ℚ) (hasCb : Bool)
    (chunk : List ℚ) (now : ℚ) (s : RecorderState)
    (hrec : s.is_recording = true)
    (hauto : (s.auto_stop_enabled && hasCb) = true)
    (hsil : isSilentFrame chunk threshold = true)
    (hss : s.silence_start = none) :
    audio_callback threshold silence_timeout hasCb chunk now s =
      ⟨{ s with audio_data := s.audio_data ++ [chunk], silence_start := some now },
        false, false⟩ := by
  simp [audio_callback, hrec, hauto, hsil, hss]

lemma audio_callback_silent_set (threshold silence_timeout : ℚ) (hasCb : Bool)
    (chunk : List ℚ) (now : ℚ) (s : RecorderState) (t0 : ℚ)
    (hrec : s.is_recording = true)
    (hauto : (s.auto_stop_enabled && hasCb) = true)
    (hsil : isSilentFrame chunk threshold = true)
    (hss : s.silence_start = some t0) :
    audio_callback threshold silence_timeout hasCb chunk now s =
      if now - t0 > silence_timeout then
        ⟨{ s with audio_data := s.audio_data ++ [chunk] }, true, true⟩
      else
        ⟨{ s with audio_data := s.audio_data ++ [chunk] }, false, false⟩ := by
  simp only [audio_callback, hrec, hauto, hsil, hss, Bool.not_true,
    Bool.false_eq_true, if_false, if_true]

lemma audio_callback_no_auto (threshold silence_timeout : ℚ) (hasCb : Bool)
    (chunk : List ℚ) (now : ℚ) (s : RecorderState)
    (hrec : s.is_recording = true)
    (hauto : (s.auto_stop_enabled && hasCb) = false) :
    audio_callback threshold silence_timeout hasCb chunk now s =
      ⟨{ s with audio_data := s.audio_data ++ [chunk] }, false, false⟩ := by
  simp [audio_callback, hrec, hauto]

lemma audio_callback_preserves_recording (threshold silence_timeout : ℚ)
    (hasCb : Bool) (chunk : List ℚ) (now : ℚ) (s : RecorderState) :
    (audio_callback threshold silence_timeout hasCb chunk now s).state.is_recording
      = s.is_recording := by
  by_cases h1 : s.is_recording = true
  · by_cases h2 : (s.auto_stop_enabled && hasCb) = true
    · by_cases h3 : isSilentFrame chunk threshold = true
      · rcases h4 : s.silence_start with _ | t0
        · simp [audio_callback_silent_unset _ _ _ _ _ _ h1 h2 h3 h4]
        · rw [audio_callback_silent_set _ _ _ _ _ _ _ h1 h2 h3 h4]
          split_ifs <;> simp
      · simp only [Bool.not_eq_true] at h3
        simp [audio_callback_voiced _ _ _ _ _ _ h1 h2 h3]
    · simp only [Bool.not_eq_true] at h2
      simp [audio_callback_no_auto _ _ _ _ _ _ h1 h2]
  · simp only [Bool.not_eq_true] at h1
    simp [audio_callback, h1]

lemma runCallbacks_silent (threshold silence_timeout : ℚ) :
    ∀ (frames : List (List ℚ × ℚ)) (s : RecorderState) (t0 : ℚ),
      s.is_recording = true → s.auto_stop_enabled = true →
      s.silence_start = some t0 →
      (∀ f ∈ frames, isSilentFrame f.1 threshold = true) →
      (runCallbacks threshold silence_timeout true s frames).2 =
        if ∃ f ∈ frames, f.2 - t0 > silence_timeout then 1 else 0 := by
  intro frames
  induction frames with
  | nil => intro s t0 _ _ _ _; simp [runCallbacks]
  | cons f rest ih =>
      intro s t0 hrec hauto hss hsil
      have hauto' : (s.auto_stop_enabled && true) = true := by simp [hauto]
      have hsf : isSilentFrame f.1 threshold = true := hsil f (by simp)
      have hcb := audio_callback_silent_set threshold silence_timeout true
        f.1 f.2 s t0 hrec hauto' hsf hss
      by_cases hto : f.2 - t0 > silence_timeout
      · rw [if_pos hto] at hcb
        have hex : ∃ g ∈ f :: rest, g.2 - t0 > silence_timeout :=
          ⟨f, by simp, hto⟩
        simp only [runCallbacks, hcb]
        rw [if_pos hex]
        simp
      · rw [if_neg hto] at hcb
        simp only [runCallbacks, hcb, Bool.false_eq_true, if_false,
          Nat.zero_add]
        rw [ih _ t0 (by simp [hrec]) (by simp [hauto]) (by simp [hss])
          (fun g hg => hsil g (List.mem_cons_of_mem f hg))]
        have hiff : (∃ g ∈ rest, g.2 - t0 > silence_timeout) ↔
            (∃ g ∈ f :: rest, g.2 - t0 > silence_timeout) := by
          constructor
          · rintro ⟨g, hg, hgt⟩; exact ⟨g, List.mem_cons_of_mem f hg, hgt⟩
          · rintro ⟨g, hg, hgt⟩
            rcases List.mem_cons.mp hg with hg | hg
            · exact absurd (hg ▸ hgt) hto
            · exact ⟨g, hg, hgt⟩
        by_cases hex : ∃ g ∈ rest, g.2 - t0 > silence_timeout
        · rw [if_pos hex, if_pos (hiff.mp hex)]
        · rw [if_neg hex, if_neg (fun hc => hex (hiff.mpr hc))]

lemma runCallbacks_no_auto (threshold silence_timeout : ℚ) (hasCb : Bool) :
    ∀ (frames : List (List ℚ × ℚ)) (s : RecorderState),
      s.is_recording = true → s.auto_stop_enabled = false →
      runCallbacks threshold silence_timeout hasCb s frames =
        ({ s with audio_data := s.audio_data ++ frames.map (fun f => f.1) }, 0) := by
  intro frames
  induction frames with
  | nil => intro s _ _; simp [runCallbacks]
  | cons f rest ih =>
      intro s hrec hauto
      have hcb := audio_callback_no_auto threshold silence_timeout hasCb
        f.1 f.2 s hrec (by simp [hauto])
      simp only [runCallbacks, hcb, Bool.false_eq_true, if_false, Nat.zero_add]
      rw [ih _ (by simp [hrec]) (by simp [hauto])]
      simp [List.append_assoc]

lemma rollAppend_eq_lastN (max_samples : ℕ) (h : 0 < max_samples)
    (buf chunk : List ℚ) :
    rollAppend max_samples buf chunk = lastN max_samples (buf ++ chunk) := by
  simp only [rollAppend, pySliceLast, lastN]
  split_ifs with h1 h2
  · omega
  · rfl
  · have hz : (buf ++ chunk).length - max_samples = 0 := by omega
    rw [hz, List.drop_zero]

lemma lastN_append_lastN (n : ℕ) (a c : List ℚ) :
    lastN n (lastN n a ++ c) = lastN n (a ++ c) := by
  have h1 : (a ++ c).drop (a.length - n) = a.drop (a.length - n) ++ c :=
    List.drop_append_of_le_length (Nat.sub_le _ _)
  simp only [lastN]
  rw [← h1, List.drop_drop]
  congr 1
  simp only [List.length_drop, List.length_append]
  omega

lemma foldl_rollAppend (max_samples : ℕ) (h : 0 < max_samples) :
    ∀ (chunks : List (List ℚ)) (a : List ℚ),
      chunks.foldl (rollAppend max_samples) (lastN max_samples a) =
        lastN max_samples (a ++ chunks.flatten) := by
  intro chunks
  induction chunks with
  | nil => intro a; simp
  | cons c cs ih =>
      intro a
      simp only [List.foldl_cons]
      rw [rollAppend_eq_lastN _ h, lastN_append_lastN, ih (a ++ c)]
      simp [List.append_assoc]

lemma lastN_nil (n : ℕ) : lastN n ([] : List ℚ) = [] := by
  simp [lastN]

lemma lastN_length_le (n : ℕ) (l : List ℚ) : (lastN n l).length ≤ n := by
  simp only [lastN, List.length_drop]
  omega

lemma stop_recording_snd_not_recording (s : RecorderState) :
    (stop_recording s).2.is_recording = false := by
  by_cases h : s.is_recording = true
  · simp only [stop_recording, h, Bool.not_true, Bool.false_eq_true, if_false]
    split <;> rfl
  · simp only [Bool.not_eq_true] at h
    simp [stop_recording, h]

/-- C1: a `start_recording` call made while a session is already Active fails —
it returns `False` (the `AlreadyRecording` outcome, an unsuccessful return, not
an exception) and leaves the recorder state, in particular the accumulated
`audio_data` buffer, unchanged; and since every request passes through the one
`_record_lock` (modelled by serializing the requests), at most one request of
any sequence of start requests succeeds into an Active session. -/
theorem C1_at_most_one_active (openOk autoStop : Bool) (s : RecorderState)
    (reqs : List (Bool × Bool)) :
    (s.is_recording = true →
      start_recording openOk autoStop s = (false, s)) ∧
    successCount s reqs ≤ 1 :=
  ⟨fun h => start_recording_of_recording openOk autoStop s h,
    successCount_le_one s reqs⟩

/-- Witness for C1 at a concrete Active recorder state and request sequence. -/
theorem C1_at_most_one_active_witness :
    start_recording true true ⟨true, false, [[1, 2]], none, true⟩ =
      (false, ⟨true, false, [[1, 2]], none, true⟩) ∧
    successCount ⟨true, false, [[1, 2]], none, true⟩
      [(true, true), (true, false)] ≤ 1 :=
  ⟨(C1_at_most_one_active true true ⟨true, false, [[1, 2]], none, true⟩
      [(true, true), (true, false)]).1 rfl,
    (C1_at_most_one_active true true ⟨true, false, [[1, 2]], none, true⟩
      [(true, true), (true, false)]).2⟩

/-- C2: `stop_recording` is idempotent — when no session is Active it returns
`None` and leaves every field of the recorder state unchanged, and a second
consecutive call is always such a no-op, so stopping twice in a row is
equivalent to stopping once. -/
theorem C2_stop_idempotent (s : RecorderState) :
    (s.is_recording = false → stop_recording s = (none, s)) ∧
    stop_recording (stop_recording s).2 = (none, (stop_recording s).2) := by
  have hkey : ∀ t : RecorderState, t.is_recording = false →
      stop_recording t = (none, t) := by
    intro t ht
    simp [stop_recording, ht]
  exact ⟨hkey s, hkey _ (stop_recording_snd_not_recording s)⟩

/-- Witness for C2 at a concrete Idle recorder state. -/
theorem C2_stop_idempotent_witness :
    stop_recording ⟨false, true, [[1]], some 0, true⟩ =
      (none, ⟨false, true, [[1]], some 0, true⟩) ∧
    stop_recording (stop_recording ⟨false, true, [[1]], some 0, true⟩).2 =
      (none, (stop_recording ⟨false, true, [[1]], some 0, true⟩).2) :=
  ⟨(C2_stop_idempotent ⟨false, true, [[1]], some 0, true⟩).1 rfl,
    (C2_stop_idempotent ⟨false, true, [[1]], some 0, true⟩).2⟩

/-- C5: a push-to-talk key release never stops a toggle-mode recording — when a
recording is Active and toggle mode is in progress, `on_push_to_talk_end` does
not invoke the stop path and leaves the application state unchanged; the stop
on key release fires exactly when a recording is Active and no toggle session
is in progress. -/
theorem C5_toggle_precedence (st : AppState) :
    (st.is_recording = true → st.is_toggle_mode = true →
      onPushToTalkEnd st = (st, false)) ∧
    ((onPushToTalkEnd st).2 = true ↔
      st.is_recording = true ∧ st.is_toggle_mode = false) := by
  constructor
  · intro h1 h2
    simp [onPushToTalkEnd, h1, h2]
  · cases h1 : st.is_recording <;> cases h2 : st.is_toggle_mode <;>
      simp [onPushToTalkEnd, h1, h2]

/-- Witness for C5 at a concrete Active, toggle-mode application state. -/
theorem C5_toggle_precedence_witness :
    onPushToTalkEnd ⟨⟨true, false, [[1]], none, true⟩, true, true⟩ =
      (⟨⟨true, false, [[1]], none, true⟩, true, true⟩, false) :=
  (C5_toggle_precedence ⟨⟨true, false, [[1]], none, true⟩, true, true⟩).1 rfl rfl

/-- C10: every invocation of the controller's stop path
(`stop_recording_and_transcribe`) sets both `is_recording` and
`is_toggle_mode` to `False`, for every application state — regardless of the
triggering path and of whether audio was captured — so toggle mode never
outlives its session, and a push-to-talk release arriving afterwards is a
no-op. -/
theorem C10_stop_clears_flags (st : AppState) :
    (stopRecordingAndTranscribe st).1.is_recording = false ∧
    (stopRecordingAndTranscribe st).1.is_toggle_mode = false ∧
    onPushToTalkEnd (stopRecordingAndTranscribe st).1 =
      ((stopRecordingAndTranscribe st).1, false) := by
  have h : (stopRecordingAndTranscribe st).1 =
      { recorder := (stop_recording st.recorder).2, is_recording := false,
        is_toggle_mode := false } := by
    rcases h' : (stop_recording st.recorder).1 with _ | a
    · simp [stopRecordingAndTranscribe, h']
    · simp only [stopRecordingAndTranscribe, h']
      split <;> rfl
  rw [h]
  exact ⟨rfl, rfl, by simp [onPushToTalkEnd]⟩

/-- C7: the rolling wake-word buffer never exceeds
`buffer_duration_seconds * sample_rate` samples: after any number of appends
the buffer length is at most `max_samples`, and the buffer holds exactly the
most recent samples of the whole appended history in order (oldest evicted
first). -/
theorem C7_rolling_buffer_bound (max_samples : ℕ) (h : 0 < max_samples)
    (chunks : List (List ℚ)) :
    (chunks.foldl (rollAppend max_samples) []).length ≤ max_samples ∧
    chunks.foldl (rollAppend max_samples) [] =
      lastN max_samples chunks.flatten := by
  have heq : chunks.foldl (rollAppend max_samples) [] =
      lastN max_samples chunks.flatten := by
    have hfold := foldl_rollAppend max_samples h chunks []
    rw [lastN_nil] at hfold
    simpa using hfold
  exact ⟨heq ▸ lastN_length_le _ _, heq⟩

/-- Witness for C7: capacity 3, three appended chunks totalling 5 samples. -/
theorem C7_rolling_buffer_bound_witness :
    0 < 3 ∧
    (([[1, 2], [3, 4], [5]] : List (List ℚ)).foldl (rollAppend 3) []).length ≤ 3 ∧
    ([[1, 2], [3, 4], [5]] : List (List ℚ)).foldl (rollAppend 3) [] =
      lastN 3 ([[1, 2], [3, 4], [5]] : List (List ℚ)).flatten :=
  ⟨by decide, (C7_rolling_buffer_bound 3 (by decide) [[1, 2], [3, 4], [5]]).1,
    (C7_rolling_buffer_bound 3 (by decide) [[1, 2], [3, 4], [5]]).2⟩

/-- C8: the wake-word word matching reports a detection exactly when the words
of the configured wake phrase appear as a contiguous run inside the words of
the recognized text, both lowercased and whitespace-split: some index `i` has
`text_words[i : i+len(wake_words)] == wake_words`. -/
theorem C8_wake_word_iff (wake_word text : String) :
    checkForWakeWord wake_word text = true ↔
      ∃ i, i + (pySplit (pyLower wake_word)).length ≤
          (pySplit (pyStrip (pyLower text))).length ∧
        ((pySplit (pyStrip (pyLower text))).drop i).take
            (pySplit (pyLower wake_word)).length =
          pySplit (pyLower wake_word) := by
  simp only [checkForWakeWord, pyRange, List.any_eq_true, List.mem_range,
    beq_iff_eq]
  constructor
  · rintro ⟨i, hi, heq⟩
    refine ⟨i, ?_, heq⟩
    have hi' : (i : ℤ) <
        ((pySplit (pyStrip (pyLower text))).length : ℤ) -
          ((pySplit (pyLower wake_word)).length : ℤ) + 1 := Int.lt_toNat.mp hi
    omega
  · rintro ⟨i, hle, heq⟩
    exact ⟨i, Int.lt_toNat.mpr (by omega), heq⟩

/-- C9: wake-word activations are rate-limited by the cooldown: the phrase
check is invoked only when the frame has voice activity and more than
`cooldown_period` has elapsed since the last successful detection;
`last_detection_time` is updated only on a successful detection; and two
frames that would both genuinely detect the phrase, arriving less than the
cooldown apart, produce exactly one activation. -/
theorem C9_wake_word_cooldown (threshold cooldown last : ℚ)
    (f f1 f2 : SoffyFrame) :
    ((soffyStep threshold cooldown f last).1 = true →
      detectVoiceActivity f.chunk threshold = true ∧
        f.now - last > cooldown) ∧
    ((soffyStep threshold cooldown f last).2.1 = false →
      (soffyStep threshold cooldown f last).2.2 = last) ∧
    ((soffyStep threshold cooldown f last).2.1 = true →
      (soffyStep threshold cooldown f last).2.2 = f.now) ∧
    (detectVoiceActivity f1.chunk threshold = true →
      detectVoiceActivity f2.chunk threshold = true →
      f1.wake = true → f2.wake = true →
      f1.now - last > cooldown → f2.now - f1.now < cooldown →
      (runSoffy threshold cooldown last [f1, f2]).2.1 = 1) := by
  refine ⟨?_, ?_, ?_, ?_⟩
  · intro h
    by_cases hv : detectVoiceActivity f.chunk threshold = true
    · by_cases hc : f.now - last > cooldown
      · exact ⟨hv, hc⟩
      · simp [soffyStep, hv, hc] at h
    · simp [soffyStep, hv] at h
  · intro h
    by_cases hv : detectVoiceActivity f.chunk threshold = true
    · by_cases hc : f.now - last > cooldown
      · by_cases hw : f.wake = true
        · simp [soffyStep, hv, hc, hw] at h
        · simp only [Bool.not_eq_true] at hw
          simp [soffyStep, hv, hc, hw]
      · simp [soffyStep, hv, hc]
    · simp [soffyStep, hv]
  · intro h
    by_cases hv : detectVoiceActivity f.chunk threshold = true
    · by_cases hc : f.now - last > cooldown
      · by_cases hw : f.wake = true
        · simp [soffyStep, hv, hc, hw]
        · simp only [Bool.not_eq_true] at hw
          simp [soffyStep, hv, hc, hw] at h
      · simp [soffyStep, hv, hc] at h
    · simp [soffyStep, hv] at h
  · intro hv1 hv2 hw1 hw2 hc1 hc2
    have hstep1 : soffyStep threshold cooldown f1 last = (true, true, f1.now) := by
      simp [soffyStep, hv1, hc1, hw1]
    have hnc2 : ¬(f2.now - f1.now > cooldown) := by
      intro hgt
      exact absurd hc2 (not_lt.mpr (le_of_lt hgt))
    have hstep2 : soffyStep threshold cooldown f2 f1.now = (false, false, f1.now) := by
      by_cases hv : detectVoiceActivity f2.chunk threshold = true
      · simp [soffyStep, hv, hnc2]
      · simp [soffyStep, hv]
    simp [runSoffy, hstep1, hstep2]

lemma toggleCheckActivation_fst_true (cfg pressed : List String) (now : ℚ)
    (ts : ToggleState)
    (h : (toggleCheckActivation cfg pressed now ts).1 = true) :
    toggleCheckActivation cfg pressed now ts =
      (true, { ts with last_toggle_time := now }) ∧ ts.enabled = true := by
  cases he : ts.enabled
  · simp [toggleCheckActivation, he] at h
  · refine ⟨?_, rfl⟩
    simp only [toggleCheckActivation, he, Bool.not_true, Bool.false_eq_true,
      if_false] at h ⊢
    split_ifs at h ⊢ with hc
    rfl

/-- C6 counterexample: with toggle chord `ctrl`+`t` and the identical pressed
set at two key events 1 second apart — the second event arrives while the
chord is merely still held, with no new transition into the all-pressed
state — the handler fires on both events: the chord-still-held event produces
an additional `toggle_recording` invocation once the debounce window has
passed, so firing is not rising-edge-only. -/
theorem C6_toggle_counterexample :
    (toggleCheckActivation ["ctrl", "t"] ["ctrl", "t"] 10 ⟨0, true⟩).1 = true ∧
    (toggleCheckActivation ["ctrl", "t"] ["ctrl", "t"] 11
        (toggleCheckActivation ["ctrl", "t"] ["ctrl", "t"] 10 ⟨0, true⟩).2).1 =
      true := by
  have hstr : ((!((["ctrl", "t"].map normKey)).isEmpty) &&
      ((["ctrl", "t"].map normKey).all
        (fun k => ((["ctrl", "t"].map normKey)).contains k))) = true := by
    decide
  have h1 : toggleCheckActivation ["ctrl", "t"] ["ctrl", "t"] 10 ⟨0, true⟩ =
      (true, ⟨10, true⟩) := by
    norm_num [toggleCheckActivation, hstr, debounce_delay]
  have h2 : toggleCheckActivation ["ctrl", "t"] ["ctrl", "t"] 11 ⟨10, true⟩ =
      (true, ⟨11, true⟩) := by
    norm_num [toggleCheckActivation, hstr, debounce_delay]
  refine ⟨by rw [h1], ?_⟩
  rw [h1]
  show (toggleCheckActivation ["ctrl", "t"] ["ctrl", "t"] 11 ⟨10, true⟩).1 = true
  rw [h2]

/-- C6 (amended): `check_activation` fires exactly when the handler is enabled,
the normalized toggle chord is nonempty and a subset of the normalized pressed
keys, and more than the debounce window (`debounce_delay`, 500 ms) has elapsed
since the previous successful fire — there is no rising-edge detection, so an
event while the chord is still held fires again once the debounce window has
passed; and two chord events less than the debounce window apart produce
exactly one invocation (the later one is rejected, whatever keys it
reports). -/
theorem C6_toggle_debounce (cfg pressed pressed2 : List String)
    (now now2 : ℚ) (ts : ToggleState) :
    ((toggleCheckActivation cfg pressed now ts).1 =
      (ts.enabled && !(cfg.map normKey).isEmpty &&
        (cfg.map normKey).all (fun k => (pressed.map normKey).contains k) &&
        decide (now - ts.last_toggle_time > debounce_delay))) ∧
    ((toggleCheckActivation cfg pressed now ts).1 = true →
      now2 - now < debounce_delay →
      (toggleCheckActivation cfg pressed2 now2
          (toggleCheckActivation cfg pressed now ts).2).1 = false) := by
  constructor
  · cases he : ts.enabled
    · simp [toggleCheckActivation, he]
    · simp only [toggleCheckActivation, he, Bool.not_true, Bool.false_eq_true,
        if_false, Bool.true_and]
      split_ifs with hc
      · simp only [Bool.true_and]
        exact hc.symm
      · have hcf : ((!(cfg.map normKey).isEmpty) &&
            (cfg.map normKey).all (fun k => (pressed.map normKey).contains k) &&
            decide (now - ts.last_toggle_time > debounce_delay)) = false := by
          simpa using hc
        simp only [Bool.true_and]
        exact hcf.symm
  · intro hf hlt
    obtain ⟨heq, hen⟩ := toggleCheckActivation_fst_true cfg pressed now ts hf
    rw [heq]
    show (toggleCheckActivation cfg pressed2 now2
      { ts with last_toggle_time := now }).1 = false
    have hnd : ¬(now2 - now > debounce_delay) := by
      intro hgt
      exact absurd hlt (not_lt.mpr (le_of_lt hgt))
    simp [toggleCheckActivation, hen, hnd]

/-- C4: auto-stop silence tracking in `_audio_callback`, for an Active session
with auto-stop enabled and a callback installed: a frame whose RMS is at or
above the voice-activation threshold resets `silence_start` to unset; a silent
frame with the timer unset stamps it with the current time; a silent frame
within the window leaves the timer untouched; a silent frame whose time
exceeds `silence_start` by more than `silence_timeout` schedules one deferred
stop and completes the stream; the callback never clears `is_recording` itself
(the stop is deferred, never synchronous); over any delivered frame sequence
at most one deferred stop is scheduled — exactly one when, after silence
begins at `t0`, some later frame arrives more than `silence_timeout` past
`t0` with silence unbroken — and a voiced frame resets the timer so that an
immediately following silent frame schedules no stop. -/
theorem C4_auto_stop_detection (threshold silence_timeout : ℚ)
    (s : RecorderState) (chunk : List ℚ) (now : ℚ)
    (hrec : s.is_recording = true) (hauto : s.auto_stop_enabled = true) :
    (isSilentFrame chunk threshold = false →
      audio_callback threshold silence_timeout true chunk now s =
        ⟨{ s with audio_data := s.audio_data ++ [chunk], silence_start := none }, false, false⟩) ∧
    (isSilentFrame chunk threshold = true → s.silence_start = none →
      audio_callback threshold silence_timeout true chunk now s =
        ⟨{ s with audio_data := s.audio_data ++ [chunk], silence_start := some now }, false, false⟩) ∧
    (∀ t0, isSilentFrame chunk threshold = true → s.silence_start = some t0 →
      now - t0 > silence_timeout →
      audio_callback threshold silence_timeout true chunk now s =
        ⟨{ s with audio_data := s.audio_data ++ [chunk] }, true, true⟩) ∧
    (∀ t0, isSilentFrame chunk threshold = true → s.silence_start = some t0 →
      ¬(now - t0 > silence_timeout) →
      audio_callback threshold silence_timeout true chunk now s =
        ⟨{ s with audio_data := s.audio_data ++ [chunk] }, false, false⟩) ∧
    ((audio_callback threshold silence_timeout true chunk now s).state.is_recording
      = s.is_recording) ∧
    (∀ (frames : List (List ℚ × ℚ)) (s' : RecorderState),
      (runCallbacks threshold silence_timeout true s' frames).2 ≤ 1) ∧
    (∀ (c0 : List ℚ) (t0 : ℚ) (rest : List (List ℚ × ℚ)),
      s.silence_start = none → isSilentFrame c0 threshold = true →
      (∀ f ∈ rest, isSilentFrame f.1 threshold = true) →
      (∃ f ∈ rest, f.2 - t0 > silence_timeout) →
      (runCallbacks threshold silence_timeout true s ((c0, t0) :: rest)).2 = 1) ∧
    (∀ (c1 c2 : List ℚ) (t1 t2 : ℚ),
      isSilentFrame c1 threshold = false → isSilentFrame c2 threshold = true →
      (runCallbacks threshold silence_timeout true s [(c1, t1), (c2, t2)]).2
        = 0) := by
  have hauto' : (s.auto_stop_enabled && true) = true := by simp [hauto]
  refine ⟨?_, ?_, ?_, ?_, ?_, ?_, ?_, ?_⟩
  · intro hsil
    exact audio_callback_voiced threshold silence_timeout true chunk now s
      hrec hauto' hsil
  · intro hsil hss
    exact audio_callback_silent_unset threshold silence_timeout true chunk now s
      hrec hauto' hsil hss
  · intro t0 hsil hss hto
    have := audio_callback_silent_set threshold silence_timeout true chunk now s
      t0 hrec hauto' hsil hss
    rwa [if_pos hto] at this
  · intro t0 hsil hss hto
    have := audio_callback_silent_set threshold silence_timeout true chunk now s
      t0 hrec hauto' hsil hss
    rwa [if_neg hto] at this
  · exact audio_callback_preserves_recording threshold silence_timeout true
      chunk now s
  · intro frames s'
    exact runCallbacks_count_le_one threshold silence_timeout true frames s'
  · intro c0 t0 rest hss hsil0 hsil hex
    have hcb := audio_callback_silent_unset threshold silence_timeout true
      c0 t0 s hrec hauto' hsil0 hss
    simp only [runCallbacks, hcb, Bool.false_eq_true, if_false, Nat.zero_add]
    rw [runCallbacks_silent threshold silence_timeout rest _ t0
      (by simp [hrec]) (by simp [hauto]) (by simp) hsil]
    rw [if_pos hex]
  · intro c1 c2 t1 t2 hv hsil2
    have hcb1 := audio_callback_voiced threshold silence_timeout true c1 t1 s
      hrec hauto' hv
    have hcb2 := audio_callback_silent_unset threshold silence_timeout true
      c2 t2 { s with audio_data := s.audio_data ++ [c1], silence_start := none }
      (by simp [hrec]) (by simp [hauto]) hsil2 (by simp)
    simp only [runCallbacks, hcb1, hcb2, Bool.false_eq_true, if_false,
      Nat.zero_add]

/-- Witness for C4: a voiced frame (RMS 1 ≥ threshold 1/50) delivered at time 0
to an Active auto-stop session resets the silence timer and schedules
nothing. -/
theorem C4_auto_stop_detection_witness :
    audio_callback (1 / 50) 2 true [1] 0 ⟨true, true, [], none, true⟩ =
      ⟨⟨true, true, [[1]], none, true⟩, false, false⟩ := by
  have hsil : isSilentFrame [1] (1 / 50) = false := by
    norm_num [isSilentFrame, meanSq]
  exact (C4_auto_stop_detection (1 / 50) 2 ⟨true, true, [], none, true⟩ [1] 0
    rfl rfl).1 hsil

/-- C3: the composite stop path: starting from an Idle recorder,
`start_recording` succeeds and clears the buffer, the callbacks append the
delivered frames in order (auto-stop is off, so the callback only appends),
`stop_recording` returns exactly their concatenation in append order (`None`
for an empty frame list) and transitions the session to Idle, and the
controller's `stop_recording_and_transcribe` submits the buffer onward only
when it is longer than the 1000-sample minimum, otherwise treating the stop as
"no audio captured" — a normal outcome, not an error. -/
theorem C3_stop_returns_concatenation (threshold silence_timeout : ℚ)
    (hasCb : Bool) (s : RecorderState) (frames : List (List ℚ × ℚ))
    (tog : Bool) (hrec : s.is_recording = false) :
    (start_recording true false s).1 = true ∧
    (runCallbacks threshold silence_timeout hasCb
        (start_recording true false s).2 frames).1.audio_data =
      frames.map (fun f => f.1) ∧
    (stop_recording (runCallbacks threshold silence_timeout hasCb
        (start_recording true false s).2 frames).1).1 =
      (if frames.isEmpty then none
        else some ((frames.map (fun f => f.1)).flatten)) ∧
    (stop_recording (runCallbacks threshold silence_timeout hasCb
        (start_recording true false s).2 frames).1).2.is_recording = false ∧
    (stopRecordingAndTranscribe
        ⟨(runCallbacks threshold silence_timeout hasCb
            (start_recording true false s).2 frames).1, true, tog⟩).2 =
      (if 1000 < ((frames.map (fun f => f.1)).flatten).length
        then some ((frames.map (fun f => f.1)).flatten) else none) := by
  have hstart : start_recording true false s =
      (true, ⟨true, false, [], none, true⟩) := by
    simp [start_recording, hrec]
  have hrun : runCallbacks threshold silence_timeout hasCb
      (start_recording true false s).2 frames =
      (⟨true, false, frames.map (fun f => f.1), none, true⟩, 0) := by
    rw [hstart]
    have h := runCallbacks_no_auto threshold silence_timeout hasCb frames
      ⟨true, false, [], none, true⟩ rfl rfl
    simpa using h
  refine ⟨by rw [hstart], by rw [hrun], ?_, ?_, ?_⟩
  · rw [hrun]
    rcases frames with _ | ⟨f0, rest⟩
    · simp [stop_recording]
    · simp [stop_recording]
  · rw [hrun]
    exact stop_recording_snd_not_recording _
  · rw [hrun]
    rcases frames with _ | ⟨f0, rest⟩
    · simp [stopRecordingAndTranscribe, stop_recording]
    · simp only [stopRecordingAndTranscribe, stop_recording, List.map_cons,
        List.isEmpty_cons, Bool.not_true, Bool.false_eq_true, if_false]
      split_ifs <;> rfl

/-- Witness for C3: three frames appended after a fresh start; stop returns
their concatenation in order. -/
theorem C3_stop_returns_concatenation_witness :
    (stop_recording (runCallbacks 0 0 true
        (start_recording true false ⟨false, false, [[9]], some 3, false⟩).2
        [([1, 2], 5), ([3], 6), ([4], 7)]).1).1 = some [1, 2, 3, 4] := by
  have h := (C3_stop_returns_concatenation 0 0 true
    ⟨false, false, [[9]], some 3, false⟩
    [([1, 2], 5), ([3], 6), ([4], 7)] true rfl).2.2.1
  simpa using h
